import Mathlib

/-
Verification of the ly-python-tools lint engine
(src/ly_python_tools/lint/{modified_paths,linter,cli,environ}.py)
against its natural-language specification, via a shallow embedding.

Modelling conventions:
* a filesystem is a map from path (String) to the observable file state
  (modification time and byte content); a path mapped to none is absent
  or unreadable, so any stat/open on it raises;
* Python exceptions are modelled with Except PyExc;
* the md5 digest is modelled as an arbitrary function on the content
  (the code only ever compares digests of contents, never inspects them),
  passed as an explicit parameter;
* subprocess behaviour is modelled by its observables: the filesystem at
  window entry and at window exit, plus captured stdout/stderr/returncode;
* asyncio.gather with return_exceptions set to True is modelled by the
  list of completed per-task outcomes: none for a task that returned
  None, Sum.inl for a task that raised a captured exception, Sum.inr for
  a task that returned a result.
-/

set_option autoImplicit false

deriving instance DecidableEq for Except

namespace LyLint

/-- Observable on-disk state of one file: stat modification time and byte content. -/
structure File where
  mtime : Int
  content : List Nat
deriving DecidableEq, Repr

/-- Filesystem snapshot: none means the path is absent or unreadable. -/
abbrev FS : Type := String → Option File

/-- Python exceptions relevant to the lint engine. -/
inductive PyExc where
  | fileNotFound (path : String)
  | assertionError (msg : String)
  | keyError (key : String)
deriving DecidableEq, Repr

/-- path.stat().st_mtime: raises FileNotFoundError when the path is absent. -/
def statMtime (fs : FS) (p : String) : Except PyExc Int :=
  match fs p with
  | none => Except.error (PyExc.fileNotFound p)
  | some f => Except.ok f.mtime

/-- Digest of a file content, as computed by _PathModified._current_hash:
open the file (raising when absent or unreadable) and digest its bytes. -/
def readHash (digest : List Nat → List Nat) (fs : FS) (p : String) :
    Except PyExc (List Nat) :=
  match fs p with
  | none => Except.error (PyExc.fileNotFound p)
  | some f => Except.ok (digest f.content)

/-- Embedding of _PathModified: the path together with the mtime and digest
snapshotted at construction time. -/
structure PathModified where
  path : String
  _mtime : Int
  _hash : List Nat
deriving DecidableEq, Repr

/-- Embedding of _PathModified.__post_init__: snapshot mtime then digest; either read
raises when the file is absent at entry. -/
def PathModified.init (digest : List Nat → List Nat) (fs : FS) (p : String) :
    Except PyExc PathModified := do
  let m ← statMtime fs p
  let h ← readHash digest fs p
  Except.ok ⟨p, m, h⟩

/-- Embedding of _PathModified.modified: re-read the mtime (raising when the file is now
absent); when it differs from the stored one, recompute the digest and
report modified exactly when the digest also differs; when the mtime is
unchanged, report not modified without touching the content. -/
def PathModified.modified (digest : List Nat → List Nat) (fs : FS)
    (self : PathModified) : Except PyExc Bool := do
  let m ← statMtime fs self.path
  if m ≠ self._mtime then
    let h ← readHash digest fs self.path
    Except.ok (decide (h ≠ self._hash))
  else
    Except.ok false

/-- State of a ModifiedPaths instance: _paths is what remains of the
single-use iterator built in __init__, _watch_paths the snapshots taken at
window entry, modified_paths the diff computed at window exit. -/
structure ModifiedPaths where
  _paths : List String
  _watch_paths : List PathModified
  modified_paths : List String
deriving DecidableEq, Repr

/-- ModifiedPaths.__init__(paths): stores iter(paths) and empty lists. -/
def ModifiedPaths.init (paths : List String) : ModifiedPaths :=
  ⟨paths, [], []⟩

/-- ModifiedPaths.__aenter__: snapshot every path still in the iterator
(consuming it), reset modified_paths. -/
def ModifiedPaths.aenter (digest : List Nat → List Nat) (fs : FS)
    (m : ModifiedPaths) : Except PyExc ModifiedPaths := do
  let watch ← m._paths.mapM (PathModified.init digest fs)
  Except.ok ⟨[], watch, []⟩

/-- The list comprehension in ModifiedPaths.__aexit__: paths of the watched
files that report modified, left to right, first exception propagating. -/
def watchModifiedList (digest : List Nat → List Nat) (fs : FS) :
    List PathModified → Except PyExc (List String)
  | [] => Except.ok []
  | pm :: rest => do
      let b ← PathModified.modified digest fs pm
      let tail ← watchModifiedList digest fs rest
      Except.ok (if b then pm.path :: tail else tail)

/-- ModifiedPaths.__aexit__: store the modified subset of the watch list. -/
def ModifiedPaths.aexit (digest : List Nat → List Nat) (fs : FS)
    (m : ModifiedPaths) : Except PyExc ModifiedPaths := do
  let mods ← watchModifiedList digest fs m._watch_paths
  Except.ok ⟨m._paths, m._watch_paths, mods⟩

/-- The modification predicate as the specification words it: either a
mtime difference or a digest difference alone reports the file modified. -/
def specModifiedEither (digest : List Nat → List Nat) (self : PathModified)
    (f : File) : Bool :=
  decide (f.mtime ≠ self._mtime) || decide (digest f.content ≠ self._hash)

/-- Embedding of the Linter dataclass (the derived _executable field is the
executable itself viewed as a path, so it is not repeated here). -/
structure Linter where
  executable : String
  options : List String
  mutable : Bool
  run : Bool
  quiet : Bool
  pass_filenames : Bool
  additional_options : List String
deriving DecidableEq, Repr

/-- Observables of an external process invocation: captured stdout and
stderr, and the return code after wait. -/
structure ProcResult where
  stdout : Option String
  stderr : Option String
  returncode : Option Int
deriving DecidableEq, Repr

/-- Result of Linter.exec. -/
structure LintExecResult where
  linter : String
  stdout : Option String
  stderr : Option String
  returncode : Option Int
  modified_files : List String
deriving DecidableEq, Repr

/-- Result of Linter.bootstrap. -/
structure LintBootstrapResult where
  linter : String
  stdout : Option String
  stderr : Option String
  returncode : Option Int
  which : Option String
deriving DecidableEq, Repr

/-- Python truthiness of an optional integer return code: None and 0 are
falsy, any other integer is truthy. -/
def truthyRC : Option Int → Bool
  | none => false
  | some n => decide (n ≠ 0)

/-- The command line built by Linter.exec: executable, additional options,
options, then the files when pass_filenames is set. -/
def Linter.cmd (l : Linter) (files : List String) : List String :=
  l.executable :: (l.additional_options ++ l.options ++
    (if l.pass_filenames then files else []))

/-- Linter.exec: assert the linter is enabled, snapshot the files at window
entry, run the process (its observables are given, the filesystem at window
exit reflects whatever it wrote), diff at window exit, assert that a
non-empty diff only happens for a mutable linter, and return the result.
The shared asyncio lock serializes the protected window, so the entry and
exit filesystems are exactly the two snapshots given. -/
def Linter.exec (l : Linter) (digest : List Nat → List Nat)
    (files : List String) (fsEntry fsExit : FS) (proc : ProcResult) :
    Except PyExc LintExecResult :=
  if ¬ l.run then
    Except.error (PyExc.assertionError (l.executable ++ " is not configured to run"))
  else do
    let mp1 ← (ModifiedPaths.init files).aenter digest fsEntry
    let mp2 ← mp1.aexit digest fsExit
    let modified := mp2.modified_paths
    if modified.isEmpty || l.mutable then
      Except.ok ⟨l.executable, proc.stdout, proc.stderr, proc.returncode, modified⟩
    else
      Except.error (PyExc.assertionError
        (l.executable ++ " was not expected to change files."))

/-- Linter.bootstrap: resolve the executable on the search path (the
resolution outcome of shutil.which is given); when unresolved, return a
result carrying only the linter name; when resolved, run the help health
check (its observables are given) and return its captured output. -/
def Linter.bootstrap (l : Linter) (which : Option String) (health : ProcResult) :
    LintBootstrapResult :=
  match which with
  | none => ⟨l.executable, none, none, none, none⟩
  | some w => ⟨l.executable, health.stdout, health.stderr, health.returncode, some w⟩

/-- One iteration state step of the while loop in PyRightLinter.bootstrap:
arguments are the stream of successive underlying bootstrap results, the
remaining retry budget, the number of calls made so far, and the current
result; the loop runs while the budget and the return code are both truthy. -/
def pyrightRetry (attempts : Nat → LintBootstrapResult) :
    Nat → Nat → LintBootstrapResult → LintBootstrapResult × Nat
  | 0, calls, b => (b, calls)
  | retry + 1, calls, b =>
    if truthyRC b.returncode then
      pyrightRetry attempts retry (calls + 1) (attempts calls)
    else
      (b, calls)

/-- PyRightLinter.bootstrap: one initial underlying bootstrap call, then the
retry loop with _retries = 3; returns the last result together with the
total number of underlying bootstrap invocations made. -/
def pyrightBootstrap (attempts : Nat → LintBootstrapResult) :
    LintBootstrapResult × Nat :=
  pyrightRetry attempts 3 1 (attempts 0)

/-- Outcome of one dispatched task, as collected by asyncio.gather with
return_exceptions set to True: none when the coroutine returned None,
Sum.inl a captured exception, Sum.inr a result. -/
abbrev TaskOutcome (R : Type) : Type := Option (PyExc ⊕ R)

/-- Embedding of _exec_linter: skip a disabled linter, otherwise run it; gather captures
a raised exception instead of propagating it. -/
def execLinterTask (l : Linter) (digest : List Nat → List Nat)
    (files : List String) (fsEntry fsExit : FS) (proc : ProcResult) :
    TaskOutcome LintExecResult :=
  if ¬ l.run then none
  else
    match l.exec digest files fsEntry fsExit proc with
    | Except.ok r => some (Sum.inr r)
    | Except.error e => some (Sum.inl e)

/-- The loop of iter_returns with its exception accumulator: yield results
in order, skip None entries, collect exceptions in order, and after the last
item raise them together exactly when any were collected. The returned pair
is the list of yielded results and the optionally raised aggregate. -/
def iterReturnsAux {R : Type} :
    List (TaskOutcome R) → List PyExc → List R × Option (List PyExc)
  | [], excs => ([], if excs.isEmpty then none else some excs)
  | none :: rest, excs => iterReturnsAux rest excs
  | some (Sum.inl e) :: rest, excs => iterReturnsAux rest (excs ++ [e])
  | some (Sum.inr r) :: rest, excs =>
      let t := iterReturnsAux rest excs
      (r :: t.1, t.2)

/-- iter_returns over the completed gather outcomes. -/
def iterReturns {R : Type} (items : List (TaskOutcome R)) :
    List R × Option (List PyExc) :=
  iterReturnsAux items []

/-- The results a gather outcome list carries, in order. -/
def okItems {R : Type} (items : List (TaskOutcome R)) : List R :=
  items.filterMap fun i =>
    match i with
    | some (Sum.inr r) => some r
    | _ => none

/-- The captured exceptions a gather outcome list carries, in order. -/
def errItems {R : Type} (items : List (TaskOutcome R)) : List PyExc :=
  items.filterMap fun i =>
    match i with
    | some (Sum.inl e) => some e
    | _ => none

/-- Observable outcome of a phase of the run: an aggregate
MultipleExceptions propagating out, sys.exit with a code, or a normal
successful return. -/
inductive RunOutcome where
  | raised (excs : List PyExc)
  | exited (code : Nat)
  | success
deriving DecidableEq, Repr

/-- The per-result test of the loop in _run_linters: the _exit flag is set
when the modified file list is truthy or the return code is truthy. -/
def lintFailed (r : LintExecResult) : Bool :=
  !r.modified_files.isEmpty || truthyRC r.returncode

/-- The result-aggregation part of _run_linters: iterate iter_returns over
the completed gather outcomes, set the _exit flag from each yielded result;
the aggregate raise, when any exception was captured, escapes the for loop
before sys.exit is reached; otherwise exit 1 when the flag was set, else
report success. -/
def runLinters (outcomes : List (TaskOutcome LintExecResult)) : RunOutcome :=
  let t := iterReturns outcomes
  match t.2 with
  | some excs => RunOutcome.raised excs
  | none => if t.1.any lintFailed then RunOutcome.exited 1 else RunOutcome.success

/-- One iteration of the loop in _bootstrap: echo a broken-tool line when
the return code is truthy, a missing-tool line when no executable was
located, setting the _exit flag in either case. -/
def bootstrapStep (acc : List String × Bool) (r : LintBootstrapResult) :
    List String × Bool :=
  let a1 :=
    if truthyRC r.returncode then
      (acc.1 ++ [r.linter ++ " is broken and exited"], true)
    else acc
  if r.which = none then (a1.1 ++ [r.linter ++ " is missing"], true) else a1

/-- The _bootstrap phase over the completed gather outcomes: the echoed
per-linter diagnostic lines, and the phase outcome (aggregate raise, exit 1
on any broken or missing tool, success otherwise). -/
def bootstrapPhase (outcomes : List (TaskOutcome LintBootstrapResult)) :
    List String × RunOutcome :=
  let t := iterReturns outcomes
  let s := t.1.foldl bootstrapStep ([], false)
  match t.2 with
  | some excs => (s.1, RunOutcome.raised excs)
  | none => if s.2 then (s.1, RunOutcome.exited 1) else (s.1, RunOutcome.success)

/-- The process environment os.environ, viewed as the mapping it is: a key
is either bound to a value or unset. -/
abbrev Env : Type := String → Option String

/-- os.getenv(key): the value bound to the key, none when unset. -/
def getenv (e : Env) (k : String) : Option String := e k

/-- os.environ[key] = value: bind the key, keeping every other key. -/
def setv (e : Env) (k : String) (v : String) : Env :=
  fun x => if x = k then some v else e x

/-- del os.environ[key]: unbind the key, raising KeyError when it is not
currently bound. -/
def delv (e : Env) (k : String) : Except PyExc Env :=
  if (getenv e k).isSome then
    Except.ok (fun x => if x = k then none else e x)
  else
    Except.error (PyExc.keyError k)

/-- os.environ.update(env): set every binding of env in order. -/
def updateEnv (e : Env) (env : List (String × String)) : Env :=
  env.foldl (fun acc kv => setv acc kv.1 kv.2) e

/-- The restoration loop in the finally block of environ: for each saved
(key, original value), delete the key when the original value was None,
else set it back. -/
def restoreEnv : List (String × Option String) → Env → Except PyExc Env
  | [], e => Except.ok e
  | (k, none) :: rest, e => do
      let e1 ← delv e k
      restoreEnv rest e1
  | (k, some v) :: rest, e => restoreEnv rest (setv e k v)

/-- The environ context manager around a body: save the original value of
every key being bound, update the environment, run the body (which may
change the environment further and may raise, its raised exception being
reported in the second component), then restore the saved values on every
exit path; an exception raised by the restoration itself replaces the body
exception, as in Python when a finally block raises. -/
def environScope (env : List (String × String))
    (body : Env → Env × Option PyExc) (e0 : Env) :
    Except PyExc (Env × Option PyExc) :=
  let original := env.map fun kv => (kv.1, getenv e0 kv.1)
  let r := body (updateEnv e0 env)
  match restoreEnv original r.1 with
  | Except.ok e3 => Except.ok (e3, r.2)
  | Except.error ex => Except.error ex

/-- The pyright_env decorator: wrap a call in environ, binding the pyright
environment directory (pre-resolved before entering the scope; its
computation inspects XDG_DATA_HOME, the home directory and the filesystem,
so the resolved string is a parameter here) and the global-node switch. -/
def pyrightEnv (envDir : String) (body : Env → Env × Option PyExc) (e0 : Env) :
    Except PyExc (Env × Option PyExc) :=
  environScope [("PYRIGHT_PYTHON_ENV_DIR", envDir),
    ("PYRIGHT_PYTHON_GLOBAL_NODE", "off")] body e0

theorem iterReturnsAux_eq {R : Type} (items : List (TaskOutcome R))
    (excs : List PyExc) :
    iterReturnsAux items excs =
      (okItems items,
        if (excs ++ errItems items).isEmpty then none
        else some (excs ++ errItems items)) := by
  induction items generalizing excs with
  | nil => simp [iterReturnsAux, okItems, errItems]
  | cons i rest ih =>
    match i with
    | none =>
        simp [iterReturnsAux, okItems, errItems, ih]
    | some (Sum.inl e) =>
        simp [iterReturnsAux, okItems, errItems, ih]
    | some (Sum.inr r) =>
        simp [iterReturnsAux, okItems, errItems, ih]

theorem iterReturns_eq {R : Type} (items : List (TaskOutcome R)) :
    iterReturns items =
      (okItems items,
        if (errItems items).isEmpty then none else some (errItems items)) := by
  simpa using iterReturnsAux_eq items []

theorem runLinters_raised (outcomes : List (TaskOutcome LintExecResult))
    (h : errItems outcomes ≠ []) :
    runLinters outcomes = RunOutcome.raised (errItems outcomes) := by
  unfold runLinters
  rw [iterReturns_eq]
  simp [h]

/-- C4: iter_returns over a completed gather outcome list yields exactly the
successful results, in order, all of them before any raise; the captured
exceptions are exactly the exception entries of the outcome list, in order,
and they are raised together as one aggregate exactly when at least one was
captured — when none was captured nothing is raised. The outcome list itself
models asyncio.gather with return_exceptions set to True: every task runs to
completion and contributes its own entry, so a per-task failure never aborts
a sibling task. -/
theorem iter_returns_collects_all {R : Type} (items : List (TaskOutcome R)) :
    iterReturns items =
      (okItems items,
        if (errItems items).isEmpty then none else some (errItems items)) :=
  iterReturns_eq items

theorem isEmpty_false_of_ne_nil {α : Type} {l : List α} (h : l ≠ []) :
    l.isEmpty = false := by
  cases l with
  | nil => exact absurd rfl h
  | cons a t => rfl

theorem ne_nil_of_isEmpty_false {α : Type} {l : List α} (h : l.isEmpty = false) :
    l ≠ [] := by
  cases l with
  | nil => cases h
  | cons a t => simp

theorem runLinters_no_exc (outcomes : List (TaskOutcome LintExecResult))
    (h : errItems outcomes = []) :
    runLinters outcomes =
      if (okItems outcomes).any lintFailed then RunOutcome.exited 1
      else RunOutcome.success := by
  unfold runLinters
  rw [iterReturns_eq]
  simp [h]

/-- C5: the run fails (either by the aggregate exception escaping or by
sys.exit 1) exactly when some linter result carries a truthy return code,
or some linter result carries a non-empty modified-file list, or at least
one exception was captured so the aggregate was raised; otherwise the run
reports success. -/
theorem run_fails_iff (outcomes : List (TaskOutcome LintExecResult)) :
    runLinters outcomes ≠ RunOutcome.success ↔
      ((∃ r ∈ okItems outcomes, truthyRC r.returncode = true) ∨
       (∃ r ∈ okItems outcomes, r.modified_files ≠ []) ∨
       errItems outcomes ≠ []) := by
  by_cases hexc : errItems outcomes = []
  · rw [runLinters_no_exc outcomes hexc]
    by_cases ha : (okItems outcomes).any lintFailed = true
    · rw [ha]
      simp only [if_true]
      constructor
      · intro _
        rcases List.any_eq_true.mp ha with ⟨r, hr, hf⟩
        by_cases hm : r.modified_files.isEmpty = true
        · exact Or.inl ⟨r, hr, by simpa [lintFailed, hm] using hf⟩
        · have hm' : r.modified_files.isEmpty = false := by
            cases hb : r.modified_files.isEmpty
            · rfl
            · exact absurd hb hm
          exact Or.inr (Or.inl ⟨r, hr, ne_nil_of_isEmpty_false hm'⟩)
      · intro _
        intro hcontra
        cases hcontra
    · have ha' : (okItems outcomes).any lintFailed = false := by
        cases hb : (okItems outcomes).any lintFailed
        · rfl
        · exact absurd hb ha
      rw [ha']
      rw [if_neg Bool.false_ne_true]
      constructor
      · intro hs
        exact absurd rfl hs
      · rintro (⟨r, hr, hrc⟩ | ⟨r, hr, hmod⟩ | hx)
        · have : (okItems outcomes).any lintFailed = true :=
            List.any_eq_true.mpr ⟨r, hr, by simp [lintFailed, hrc]⟩
          rw [this] at ha'
          cases ha'
        · have : (okItems outcomes).any lintFailed = true :=
            List.any_eq_true.mpr
              ⟨r, hr, by simp [lintFailed, isEmpty_false_of_ne_nil hmod]⟩
          rw [this] at ha'
          cases ha'
        · exact absurd hexc hx
  · rw [runLinters_raised outcomes hexc]
    constructor
    · intro _
      exact Or.inr (Or.inr hexc)
    · intro _
      intro hcontra
      cases hcontra

/-- C7: a disabled linter task returns None, which iter_returns skips, so it
contributes neither a result nor a captured exception; an enabled linter
task contributes exactly one entry, and that entry is either exactly one
result or exactly one captured exception, never both. -/
theorem task_contributes_exactly_one (l : Linter) (digest : List Nat → List Nat)
    (files : List String) (fsEntry fsExit : FS) (proc : ProcResult) :
    (execLinterTask l digest files fsEntry fsExit proc = none ↔ l.run = false) ∧
    (l.run = false → ∀ rest : List (TaskOutcome LintExecResult),
      iterReturns (execLinterTask l digest files fsEntry fsExit proc :: rest) =
        iterReturns rest) ∧
    (l.run = true →
      ((∃ r, execLinterTask l digest files fsEntry fsExit proc = some (Sum.inr r)) ∧
        ¬ ∃ e, execLinterTask l digest files fsEntry fsExit proc = some (Sum.inl e)) ∨
      ((∃ e, execLinterTask l digest files fsEntry fsExit proc = some (Sum.inl e)) ∧
        ¬ ∃ r, execLinterTask l digest files fsEntry fsExit proc = some (Sum.inr r))) := by
  by_cases hrun : l.run = true
  · cases hx : l.exec digest files fsEntry fsExit proc with
    | ok r =>
        refine ⟨?_, ?_, ?_⟩
        · simp [execLinterTask, hrun, hx]
        · intro hf
          rw [hrun] at hf
          cases hf
        · intro _
          exact Or.inl ⟨⟨r, by simp [execLinterTask, hrun, hx]⟩,
            by simp [execLinterTask, hrun, hx]⟩
    | error e =>
        refine ⟨?_, ?_, ?_⟩
        · simp [execLinterTask, hrun, hx]
        · intro hf
          rw [hrun] at hf
          cases hf
        · intro _
          exact Or.inr ⟨⟨e, by simp [execLinterTask, hrun, hx]⟩,
            by simp [execLinterTask, hrun, hx]⟩
  · have hrun' : l.run = false := by
      cases hb : l.run
      · rfl
      · exact absurd hb hrun
    have hnone : execLinterTask l digest files fsEntry fsExit proc = none := by
      simp [execLinterTask, hrun']
    refine ⟨by simp [hnone, hrun'], ?_, ?_⟩
    · intro _ rest
      rw [hnone]
      rfl
    · intro ht
      rw [ht] at hrun'
      cases hrun'

/-- Concrete fixture: a file with mtime 0 and content byte 1. -/
def fileA0 : File := ⟨0, [1]⟩

/-- Concrete fixture: the same file rewritten, new mtime and new content. -/
def fileA1 : File := ⟨1, [2]⟩

/-- Concrete fixture: the same file merely touched, new mtime, same content. -/
def fileA1t : File := ⟨1, [1]⟩

/-- Filesystem where only the path a exists, holding fileA0. -/
def fsA0 : FS := fun p => if p = "a" then some fileA0 else none

/-- Filesystem where only the path a exists, holding fileA1. -/
def fsA1 : FS := fun p => if p = "a" then some fileA1 else none

/-- Filesystem where only the path a exists, holding fileA1t. -/
def fsA1t : FS := fun p => if p = "a" then some fileA1t else none

/-- Filesystem with no file at all. -/
def fsNone : FS := fun _ => none

/-- The snapshot _PathModified takes of the path a over fsA0. -/
def pmA : PathModified := ⟨"a", 0, [1]⟩

/-- A non-mutable, enabled linter descriptor (the flake8 default). -/
def flake8 : Linter := ⟨"flake8", [], false, true, false, true, []⟩

/-- The same descriptor disabled by configuration. -/
def flake8off : Linter := ⟨"flake8", [], false, false, false, true, []⟩

/-- A process invocation observable that succeeded quietly. -/
def procOK : ProcResult := ⟨none, none, some 0⟩

/-- C1 (amended): for a file present at both window entry and window exit,
the detector reports it modified exactly when the stored timestamp differs
from the exit timestamp AND the stored digest differs from the exit digest;
the digest is only recomputed when the timestamp changed, and it is used to
confirm the change, so neither check differing alone reports the file. -/
theorem modified_iff_mtime_and_digest (digest : List Nat → List Nat) (fs : FS)
    (pm : PathModified) (f : File) (h : fs pm.path = some f) :
    PathModified.modified digest fs pm =
      Except.ok (decide (f.mtime ≠ pm._mtime) &&
        decide (digest f.content ≠ pm._hash)) := by
  by_cases hm : f.mtime = pm._mtime
  · simp [PathModified.modified, statMtime, readHash, h, hm, Except.bind, bind]
  · simp [PathModified.modified, statMtime, readHash, h, hm, Except.bind, bind]

/-- C1 witness: the amended theorem evaluated at the touched-file fixture. -/
theorem modified_iff_mtime_and_digest_witness :
    PathModified.modified id fsA1t pmA =
      Except.ok (decide (fileA1t.mtime ≠ pmA._mtime) &&
        decide (id fileA1t.content ≠ pmA._hash)) :=
  modified_iff_mtime_and_digest id fsA1t pmA fileA1t (by decide)

/-- C1 counterexample: the path a is present at entry (mtime 0, content [1])
and at exit (mtime 1, content [1]): the stored timestamp differs from the
exit timestamp, so the claimed either-check-suffices reading demands the
file be reported modified, yet the code reports it unmodified because the
recomputed digest is unchanged. -/
theorem claim_C1_counterexample :
    PathModified.init id fsA0 "a" = Except.ok pmA ∧
    fsA1t pmA.path = some fileA1t ∧
    specModifiedEither id pmA fileA1t = true ∧
    PathModified.modified id fsA1t pmA = Except.ok false := by decide

/-- C6 (amended): for a watched file absent (or unreadable) at window exit,
the detector does not handle the condition: re-reading the timestamp raises
FileNotFoundError, which propagates out of the modified check, and the file
is not reported through the modified list. -/
theorem modified_absent_raises (digest : List Nat → List Nat) (fs : FS)
    (pm : PathModified) (h : fs pm.path = none) :
    PathModified.modified digest fs pm =
      Except.error (PyExc.fileNotFound pm.path) := by
  simp [PathModified.modified, statMtime, h, Except.bind, bind]

/-- C6 witness: the amended theorem evaluated at the absent-file fixture. -/
theorem modified_absent_raises_witness :
    PathModified.modified id fsNone pmA =
      Except.error (PyExc.fileNotFound "a") :=
  modified_absent_raises id fsNone pmA rfl

/-- C6 counterexample: the path a exists at entry, is absent at exit: the
modified check raises FileNotFoundError instead of handling the condition,
and in particular does not report the file as modified. -/
theorem claim_C6_counterexample :
    PathModified.init id fsA0 "a" = Except.ok pmA ∧
    fsNone pmA.path = none ∧
    PathModified.modified id fsNone pmA =
      Except.error (PyExc.fileNotFound "a") ∧
    PathModified.modified id fsNone pmA ≠ Except.ok true := by decide

theorem aenter_ok (digest : List Nat → List Nat) (fs : FS)
    (m m' : ModifiedPaths) (h : m.aenter digest fs = Except.ok m') :
    ∃ w, m' = ⟨[], w, []⟩ := by
  unfold ModifiedPaths.aenter at h
  cases hw : m._paths.mapM (PathModified.init digest fs) with
  | error e =>
      rw [hw] at h
      cases h
  | ok w =>
      rw [hw] at h
      cases h
      exact ⟨w, rfl⟩

theorem aexit_ok (digest : List Nat → List Nat) (fs : FS)
    (m m' : ModifiedPaths) (h : m.aexit digest fs = Except.ok m') :
    ∃ mods, m' = ⟨m._paths, m._watch_paths, mods⟩ := by
  unfold ModifiedPaths.aexit at h
  cases hw : watchModifiedList digest fs m._watch_paths with
  | error e =>
      rw [hw] at h
      cases h
  | ok mods =>
      rw [hw] at h
      cases h
      exact ⟨mods, rfl⟩

/-- C10: __init__ stores a single-use iterator, and __aenter__ consumes it,
so after one completed entry and exit, entering the same instance again
snapshots an empty watch set, and the second exit computes an empty
modified-path list whatever the filesystem looks like at either end of the
second window. -/
theorem second_window_reports_empty (digest : List Nat → List Nat)
    (paths : List String) (fs1 fs2 fs3 fs4 : FS) (m1 m2 : ModifiedPaths)
    (h1 : (ModifiedPaths.init paths).aenter digest fs1 = Except.ok m1)
    (h2 : m1.aexit digest fs2 = Except.ok m2) :
    m2.aenter digest fs3 = Except.ok ⟨[], [], []⟩ ∧
    ModifiedPaths.aexit digest fs4 ⟨[], [], []⟩ = Except.ok ⟨[], [], []⟩ ∧
    (⟨[], [], []⟩ : ModifiedPaths).modified_paths = [] := by
  obtain ⟨w, hw⟩ := aenter_ok digest fs1 _ _ h1
  obtain ⟨mods, hm⟩ := aexit_ok digest fs2 _ _ h2
  have hp : m2._paths = [] := by
    rw [hm, hw]
  refine ⟨?_, rfl, rfl⟩
  unfold ModifiedPaths.aenter
  rw [hp]
  rfl

/-- C10 witness: a first window over the path a that actually detects a
modification, then the second window over the identical filesystems reports
nothing. -/
theorem second_window_reports_empty_witness :
    ModifiedPaths.aenter id fsA1 ⟨[], [pmA], ["a"]⟩ = Except.ok ⟨[], [], []⟩ ∧
    ModifiedPaths.aexit id fsA1 ⟨[], [], []⟩ = Except.ok ⟨[], [], []⟩ ∧
    (⟨[], [], []⟩ : ModifiedPaths).modified_paths = [] :=
  second_window_reports_empty id ["a"] fsA0 fsA1 fsA1 fsA1
    ⟨[], [pmA], []⟩ ⟨[], [pmA], ["a"]⟩ (by decide) (by decide)

/-- C3: a linter declared non-mutable whose protected window computed a
non-empty modified-path list does not return a result: the assertion in
Linter.exec raises AssertionError, and the run over any gather outcome list
containing that captured exception ends with the aggregate raise, the
exception being part of it, never with success. -/
theorem nonmutable_mutation_hard_error (l : Linter)
    (digest : List Nat → List Nat) (files : List String)
    (fsEntry fsExit : FS) (proc : ProcResult) (mp1 mp2 : ModifiedPaths)
    (hmut : l.mutable = false) (hrun : l.run = true)
    (h1 : (ModifiedPaths.init files).aenter digest fsEntry = Except.ok mp1)
    (h2 : mp1.aexit digest fsExit = Except.ok mp2)
    (hne : mp2.modified_paths ≠ []) :
    l.exec digest files fsEntry fsExit proc =
      Except.error (PyExc.assertionError
        (l.executable ++ " was not expected to change files.")) ∧
    ∀ pre post : List (TaskOutcome LintExecResult),
      runLinters (pre ++ some (Sum.inl (PyExc.assertionError
          (l.executable ++ " was not expected to change files."))) :: post) =
        RunOutcome.raised (errItems (pre ++ some (Sum.inl (PyExc.assertionError
          (l.executable ++ " was not expected to change files."))) :: post)) ∧
      PyExc.assertionError (l.executable ++ " was not expected to change files.") ∈
        errItems (pre ++ some (Sum.inl (PyExc.assertionError
          (l.executable ++ " was not expected to change files."))) :: post) := by
  constructor
  · simp [Linter.exec, hrun, h1, h2, Except.bind, bind, hmut,
      isEmpty_false_of_ne_nil hne]
  · intro pre post
    have hmem : PyExc.assertionError
        (l.executable ++ " was not expected to change files.") ∈
        errItems (pre ++ some (Sum.inl (PyExc.assertionError
          (l.executable ++ " was not expected to change files."))) :: post) := by
      simp [errItems, List.filterMap_append]
    have hne' : errItems (pre ++ some (Sum.inl (PyExc.assertionError
        (l.executable ++ " was not expected to change files."))) :: post) ≠ [] := by
      intro hnil
      rw [hnil] at hmem
      cases hmem
    exact ⟨runLinters_raised _ hne', hmem⟩

/-- C3 witness: flake8 (non-mutable, enabled) over a window in which the
path a was rewritten raises the contract-violation assertion. -/
theorem nonmutable_mutation_hard_error_witness :
    Linter.exec flake8 id ["a"] fsA0 fsA1 procOK =
      Except.error (PyExc.assertionError
        ("flake8" ++ " was not expected to change files.")) :=
  (nonmutable_mutation_hard_error flake8 id ["a"] fsA0 fsA1 procOK
    ⟨[], [pmA], []⟩ ⟨[], [pmA], ["a"]⟩ rfl rfl (by decide) (by decide)
    (by decide)).1

/-- Underlying bootstrap result stream where every attempt fails. -/
def attemptsAllFail : Nat → LintBootstrapResult :=
  fun _ => ⟨"pyright", none, none, some 1, some "pyright"⟩

/-- Underlying bootstrap result stream where every attempt succeeds. -/
def attemptsAllOK : Nat → LintBootstrapResult :=
  fun _ => ⟨"pyright", none, none, some 0, some "pyright"⟩

theorem pyrightBootstrap_cases (attempts : Nat → LintBootstrapResult) :
    pyrightBootstrap attempts =
      if truthyRC (attempts 0).returncode = true then
        if truthyRC (attempts 1).returncode = true then
          if truthyRC (attempts 2).returncode = true then (attempts 3, 4)
          else (attempts 2, 3)
        else (attempts 1, 2)
      else (attempts 0, 1) := rfl

/-- C2 (amended): PyRightLinter.bootstrap makes one initial underlying
bootstrap call and then retries at most _retries = 3 further times, so at
most 4 underlying invocations in total; it stops retrying as soon as an
attempt carries a falsy return code (zero or absent), returns the final
attempt whatever its outcome, and raises nothing even when every attempt
fails (the function is total and always produces the last result). -/
theorem pyright_bootstrap_retry_bound (attempts : Nat → LintBootstrapResult) :
    (pyrightBootstrap attempts).2 ≤ 4 ∧
    1 ≤ (pyrightBootstrap attempts).2 ∧
    (pyrightBootstrap attempts).1 = attempts ((pyrightBootstrap attempts).2 - 1) ∧
    (truthyRC ((pyrightBootstrap attempts).1).returncode = true →
      (pyrightBootstrap attempts).2 = 4) ∧
    (∀ i, i + 1 < (pyrightBootstrap attempts).2 →
      truthyRC (attempts i).returncode = true) := by
  rw [pyrightBootstrap_cases]
  by_cases h0 : truthyRC (attempts 0).returncode = true
  · by_cases h1 : truthyRC (attempts 1).returncode = true
    · by_cases h2 : truthyRC (attempts 2).returncode = true
      · rw [if_pos h0, if_pos h1, if_pos h2]
        refine ⟨by show (4:Nat) ≤ 4; omega, by show (1:Nat) ≤ 4; omega,
          rfl, fun _ => rfl, ?_⟩
        intro i hi
        have hi' : i + 1 < 4 := hi
        rcases i with _ | _ | _ | j
        · exact h0
        · exact h1
        · exact h2
        · exact absurd hi' (by omega)
      · rw [if_pos h0, if_pos h1, if_neg h2]
        refine ⟨by show (3:Nat) ≤ 4; omega, by show (1:Nat) ≤ 3; omega,
          rfl, fun h => absurd h h2, ?_⟩
        intro i hi
        have hi' : i + 1 < 3 := hi
        rcases i with _ | _ | j
        · exact h0
        · exact h1
        · exact absurd hi' (by omega)
    · rw [if_pos h0, if_neg h1]
      refine ⟨by show (2:Nat) ≤ 4; omega, by show (1:Nat) ≤ 2; omega,
        rfl, fun h => absurd h h1, ?_⟩
      intro i hi
      have hi' : i + 1 < 2 := hi
      rcases i with _ | j
      · exact h0
      · exact absurd hi' (by omega)
  · rw [if_neg h0]
    refine ⟨by show (1:Nat) ≤ 4; omega, by show (1:Nat) ≤ 1; omega,
      rfl, fun h => absurd h h0, ?_⟩
    intro i hi
    have hi' : i + 1 < 1 := hi
    exact absurd hi' (by omega)

/-- C2 witness: the amended theorem evaluated on the all-failing stream
(4 invocations, last failing result returned) and on the all-succeeding
stream (a single invocation). -/
theorem pyright_bootstrap_retry_bound_witness :
    (pyrightBootstrap attemptsAllFail).2 = 4 ∧
    (pyrightBootstrap attemptsAllOK).2 ≤ 4 := by
  constructor
  · exact (pyright_bootstrap_retry_bound attemptsAllFail).2.2.2.1 (by decide)
  · exact (pyright_bootstrap_retry_bound attemptsAllOK).1

/-- C2 counterexample: with every underlying attempt failing, the loop
performs 4 underlying health-check invocations, not at most 3 as claimed:
the initial call plus 3 retries. -/
theorem claim_C2_counterexample :
    (pyrightBootstrap attemptsAllFail).2 = 4 ∧
    ¬ (pyrightBootstrap attemptsAllFail).2 ≤ 3 := by decide

theorem bootstrapStep_eq (acc : List String × Bool) (r : LintBootstrapResult) :
    bootstrapStep acc r =
      if truthyRC r.returncode = true then
        if r.which = none then
          (acc.1 ++ [r.linter ++ " is broken and exited",
            r.linter ++ " is missing"], true)
        else (acc.1 ++ [r.linter ++ " is broken and exited"], true)
      else
        if r.which = none then (acc.1 ++ [r.linter ++ " is missing"], true)
        else acc := by
  by_cases ht : truthyRC r.returncode = true <;>
    by_cases hw : r.which = none <;>
      simp [bootstrapStep, ht, hw]

theorem bootstrapStep_msgs (acc : List String × Bool) (r : LintBootstrapResult) :
    ∃ t, (bootstrapStep acc r).1 = acc.1 ++ t := by
  rw [bootstrapStep_eq]
  by_cases ht : truthyRC r.returncode = true
  · by_cases hw : r.which = none
    · rw [if_pos ht, if_pos hw]
      exact ⟨_, rfl⟩
    · rw [if_pos ht, if_neg hw]
      exact ⟨_, rfl⟩
  · by_cases hw : r.which = none
    · rw [if_neg ht, if_pos hw]
      exact ⟨_, rfl⟩
    · rw [if_neg ht, if_neg hw]
      exact ⟨[], by simp⟩

theorem bootstrapStep_flag (acc : List String × Bool) (r : LintBootstrapResult)
    (h : acc.2 = true) : (bootstrapStep acc r).2 = true := by
  rw [bootstrapStep_eq]
  by_cases ht : truthyRC r.returncode = true <;>
    by_cases hw : r.which = none <;>
      simp [ht, hw, h]

theorem bootstrapStep_missing (acc : List String × Bool)
    (r : LintBootstrapResult) (hw : r.which = none) :
    (r.linter ++ " is missing") ∈ (bootstrapStep acc r).1 ∧
    (bootstrapStep acc r).2 = true := by
  rw [bootstrapStep_eq]
  by_cases ht : truthyRC r.returncode = true <;> simp [ht, hw]

theorem foldl_bootstrapStep_msgs (l : List LintBootstrapResult) :
    ∀ acc : List String × Bool,
      ∃ t, (l.foldl bootstrapStep acc).1 = acc.1 ++ t := by
  induction l with
  | nil =>
      intro acc
      exact ⟨[], by simp⟩
  | cons r rest ih =>
      intro acc
      obtain ⟨s, hs⟩ := ih (bootstrapStep acc r)
      obtain ⟨t, htq⟩ := bootstrapStep_msgs acc r
      refine ⟨t ++ s, ?_⟩
      rw [List.foldl_cons, hs, htq, List.append_assoc]

theorem foldl_bootstrapStep_flag (l : List LintBootstrapResult) :
    ∀ acc : List String × Bool, acc.2 = true →
      (l.foldl bootstrapStep acc).2 = true := by
  induction l with
  | nil =>
      intro acc h
      simpa using h
  | cons r rest ih =>
      intro acc h
      rw [List.foldl_cons]
      exact ih _ (bootstrapStep_flag acc r h)

theorem okItems_append_inr {R : Type} (pre post : List (TaskOutcome R)) (r : R) :
    okItems (pre ++ some (Sum.inr r) :: post) =
      okItems pre ++ r :: okItems post := by
  simp [okItems, List.filterMap_append]

theorem bootstrapPhase_fst (outcomes : List (TaskOutcome LintBootstrapResult)) :
    (bootstrapPhase outcomes).1 =
      ((okItems outcomes).foldl bootstrapStep ([], false)).1 := by
  unfold bootstrapPhase
  rw [iterReturns_eq]
  by_cases h : (errItems outcomes).isEmpty
  · by_cases hf : ((okItems outcomes).foldl bootstrapStep ([], false)).2 = true <;>
      simp [h, hf]
  · simp [h]

theorem bootstrapPhase_ne_success (outcomes : List (TaskOutcome LintBootstrapResult))
    (hflag : ((okItems outcomes).foldl bootstrapStep ([], false)).2 = true) :
    (bootstrapPhase outcomes).2 ≠ RunOutcome.success := by
  unfold bootstrapPhase
  rw [iterReturns_eq]
  by_cases h : (errItems outcomes).isEmpty
  · simp [h, hflag]
  · simp [h]

/-- C8: a linter whose executable cannot be resolved gets a bootstrap result
with no located executable and no return code, without raising; and the
_bootstrap phase over any gather outcome list containing that result echoes
the missing-tool line for it and does not end in success. -/
theorem missing_tool_reported (l : Linter) (health : ProcResult)
    (pre post : List (TaskOutcome LintBootstrapResult)) :
    (l.bootstrap none health).which = none ∧
    (l.bootstrap none health).returncode = none ∧
    (l.executable ++ " is missing") ∈
      (bootstrapPhase (pre ++ some (Sum.inr (l.bootstrap none health)) :: post)).1 ∧
    (bootstrapPhase (pre ++ some (Sum.inr (l.bootstrap none health)) :: post)).2 ≠
      RunOutcome.success := by
  have hlin : (l.bootstrap none health).linter = l.executable := rfl
  have hwhich : (l.bootstrap none health).which = none := rfl
  have hok := okItems_append_inr pre post (l.bootstrap none health)
  have hstep := bootstrapStep_missing
    ((okItems pre).foldl bootstrapStep ([], false)) (l.bootstrap none health) hwhich
  have hfold :
      (okItems (pre ++ some (Sum.inr (l.bootstrap none health)) :: post)).foldl
          bootstrapStep ([], false) =
        (okItems post).foldl bootstrapStep
          (bootstrapStep ((okItems pre).foldl bootstrapStep ([], false))
            (l.bootstrap none health)) := by
    rw [hok, List.foldl_append, List.foldl_cons]
  refine ⟨rfl, rfl, ?_, ?_⟩
  · rw [bootstrapPhase_fst, hfold]
    obtain ⟨t, htq⟩ := foldl_bootstrapStep_msgs (okItems post)
      (bootstrapStep ((okItems pre).foldl bootstrapStep ([], false))
        (l.bootstrap none health))
    rw [htq]
    exact List.mem_append_left t (by rw [← hlin]; exact hstep.1)
  · refine bootstrapPhase_ne_success _ ?_
    rw [hfold]
    exact foldl_bootstrapStep_flag (okItems post) _ hstep.2

/-- C8 witness: the theorem evaluated for the flake8 descriptor, an empty
prefix and suffix of sibling outcomes, and a quiet health check. -/
theorem missing_tool_reported_witness :
    (Linter.bootstrap flake8 none procOK).which = none ∧
    (Linter.bootstrap flake8 none procOK).returncode = none ∧
    ("flake8" ++ " is missing") ∈
      (bootstrapPhase [some (Sum.inr (Linter.bootstrap flake8 none procOK))]).1 ∧
    (bootstrapPhase [some (Sum.inr (Linter.bootstrap flake8 none procOK))]).2 ≠
      RunOutcome.success := by
  have h := missing_tool_reported flake8 procOK [] []
  simpa using h

theorem getenv_setv_self (e : Env) (k v : String) :
    getenv (setv e k v) k = some v := by
  simp [getenv, setv]

theorem getenv_setv_other (e : Env) (k v k' : String) (h : ¬ k' = k) :
    getenv (setv e k v) k' = getenv e k' := by
  simp [getenv, setv, h]

theorem delv_ok (e : Env) (k : String) (h : (getenv e k).isSome = true) :
    delv e k = Except.ok (fun x => if x = k then none else e x) := by
  rw [delv, if_pos h]

theorem restoreEnv_ok (original : List (String × Option String)) :
    ∀ e : Env,
      (original.map Prod.fst).Nodup →
      (∀ p ∈ original, p.2 = none → (getenv e p.1).isSome = true) →
      ∃ e3, restoreEnv original e = Except.ok e3 ∧
        (∀ p ∈ original, getenv e3 p.1 = p.2) ∧
        (∀ k, k ∉ original.map Prod.fst → getenv e3 k = getenv e k) := by
  induction original with
  | nil =>
      intro e _ _
      exact ⟨e, rfl, by simp, fun k _ => rfl⟩
  | cons p rest ih =>
      intro e hnd hdel
      obtain ⟨k, ov⟩ := p
      have hcons := List.nodup_cons.mp
        (show (k :: rest.map Prod.fst).Nodup from hnd)
      have hk_notin : k ∉ rest.map Prod.fst := hcons.1
      have hnd' : (rest.map Prod.fst).Nodup := hcons.2
      cases ov with
      | none =>
          have hsome : (getenv e k).isSome = true :=
            hdel (k, none) (List.mem_cons_self _ _) rfl
          have hdel' : ∀ q ∈ rest, q.2 = none →
              (getenv (fun x => if x = k then none else e x) q.1).isSome = true := by
            intro q hq hq2
            have hqk : ¬ q.1 = k := by
              intro hEq
              exact hk_notin (by rw [← hEq]; exact List.mem_map_of_mem Prod.fst hq)
            have hsame : getenv (fun x => if x = k then none else e x) q.1 =
                getenv e q.1 := by
              simp [getenv, hqk]
            rw [hsame]
            exact hdel q (List.mem_cons_of_mem _ hq) hq2
          obtain ⟨e3, h3, hvals, hpres⟩ :=
            ih (fun x => if x = k then none else e x) hnd' hdel'
          refine ⟨e3, ?_, ?_, ?_⟩
          · have hred : restoreEnv ((k, none) :: rest) e =
                (delv e k >>= fun e1 => restoreEnv rest e1) := rfl
            rw [hred, delv_ok e k hsome]
            exact h3
          · intro q hq
            rcases List.mem_cons.mp hq with hq1 | hq2
            · rw [hq1]
              rw [hpres k hk_notin]
              simp [getenv]
            · exact hvals q hq2
          · intro k' hk'
            have hk'1 : ¬ k' = k := by
              intro h
              exact hk' (by simp [h])
            have hk'2 : k' ∉ rest.map Prod.fst := by
              intro h
              exact hk' (by simp [h])
            rw [hpres k' hk'2]
            simp [getenv, hk'1]
      | some v =>
          have hdel' : ∀ q ∈ rest, q.2 = none →
              (getenv (setv e k v) q.1).isSome = true := by
            intro q hq hq2
            have hqk : ¬ q.1 = k := by
              intro hEq
              exact hk_notin (by rw [← hEq]; exact List.mem_map_of_mem Prod.fst hq)
            rw [getenv_setv_other e k v q.1 hqk]
            exact hdel q (List.mem_cons_of_mem _ hq) hq2
          obtain ⟨e3, h3, hvals, hpres⟩ := ih (setv e k v) hnd' hdel'
          refine ⟨e3, h3, ?_, ?_⟩
          · intro q hq
            rcases List.mem_cons.mp hq with hq1 | hq2
            · rw [hq1]
              rw [hpres k hk_notin]
              exact getenv_setv_self e k v
            · exact hvals q hq2
          · intro k' hk'
            have hk'1 : ¬ k' = k := by
              intro h
              exact hk' (by simp [h])
            have hk'2 : k' ∉ rest.map Prod.fst := by
              intro h
              exact hk' (by simp [h])
            rw [hpres k' hk'2]
            exact getenv_setv_other e k v k' hk'1

/-- C9: the environ scope, entered over any prior environment with any set
of distinct-key bindings, around any body (which may rewrite the
environment further and may raise, as long as it leaves the scoped keys
bound, which bootstrap and execution calls do): the scope always exits with
the restoration complete and the body exception, if any, propagated
unchanged; after it, every scoped key holds its prior value again, and a
key that was previously unset is unset again. -/
theorem environ_restores (env : List (String × String))
    (body : Env → Env × Option PyExc) (e0 : Env)
    (hnd : (env.map Prod.fst).Nodup)
    (hb : ∀ kv ∈ env, (getenv (body (updateEnv e0 env)).1 kv.1).isSome = true) :
    ∃ e3 : Env,
      environScope env body e0 = Except.ok (e3, (body (updateEnv e0 env)).2) ∧
      ∀ kv ∈ env, getenv e3 kv.1 = getenv e0 kv.1 := by
  have hndo : (((env.map fun kv => (kv.1, getenv e0 kv.1)).map Prod.fst)).Nodup := by
    have : ((env.map fun kv => (kv.1, getenv e0 kv.1)).map Prod.fst) =
        env.map Prod.fst := by
      simp
    rw [this]
    exact hnd
  have hdel : ∀ p ∈ env.map fun kv => (kv.1, getenv e0 kv.1), p.2 = none →
      (getenv (body (updateEnv e0 env)).1 p.1).isSome = true := by
    intro p hp _
    obtain ⟨kv, hkv, hEq⟩ := List.mem_map.mp hp
    rw [← hEq]
    exact hb kv hkv
  obtain ⟨e3, h3, hvals, _⟩ :=
    restoreEnv_ok (env.map fun kv => (kv.1, getenv e0 kv.1))
      (body (updateEnv e0 env)).1 hndo hdel
  refine ⟨e3, ?_, ?_⟩
  · simp only [environScope]
    rw [h3]
  · intro kv hkv
    have := hvals (kv.1, getenv e0 kv.1) (List.mem_map_of_mem _ hkv)
    simpa using this

/-- A body for the C9 witness: binds an unrelated variable and raises. -/
def envBody : Env → Env × Option PyExc :=
  fun e => (setv e "OTHER" "x", some (PyExc.assertionError "boom"))

/-- A prior environment for the C9 witness: only HOME is set; in particular
both pyright variables are unset. -/
def env0 : Env := fun k => if k = "HOME" then some "/root" else none

/-- The bindings pyright_env applies. -/
def pyrightBindings : List (String × String) :=
  [("PYRIGHT_PYTHON_ENV_DIR", "/root/.local/share/pyright"),
   ("PYRIGHT_PYTHON_GLOBAL_NODE", "off")]

/-- C9 witness: the theorem evaluated for the pyright bindings over a prior
environment where they are unset, around a body that raises. -/
theorem environ_restores_witness :
    ∃ e3 : Env,
      environScope pyrightBindings envBody env0 =
        Except.ok (e3, (envBody (updateEnv env0 pyrightBindings)).2) ∧
      ∀ kv ∈ pyrightBindings, getenv e3 kv.1 = getenv env0 kv.1 :=
  environ_restores pyrightBindings envBody env0 (by decide) (by decide)

/-- A quiet successful execution result. -/
def rcOK : LintExecResult := ⟨"flake8", none, none, some 0, []⟩

/-- A failing execution result: the tool found problems and exited 1. -/
def rcBad : LintExecResult := ⟨"flake8", none, none, some 1, []⟩

/-- A captured per-task exception. -/
def excBoom : PyExc := PyExc.assertionError "boom"

/-- A completed gather outcome list mixing a skipped task, results and a
captured exception. -/
def items0 : List (TaskOutcome LintExecResult) :=
  [none, some (Sum.inr rcOK), some (Sum.inl excBoom), some (Sum.inr rcBad)]

/-- C4 witness: the theorem evaluated on a mixed gather outcome list. -/
theorem iter_returns_collects_all_witness :
    iterReturns items0 =
      (okItems items0,
        if (errItems items0).isEmpty then none else some (errItems items0)) :=
  iter_returns_collects_all items0

/-- C5 witness: a run whose only result exited 1 is a failure. -/
theorem run_fails_iff_witness :
    runLinters [some (Sum.inr rcBad)] ≠ RunOutcome.success :=
  (run_fails_iff [some (Sum.inr rcBad)]).mpr
    (Or.inl ⟨rcBad, by decide, by decide⟩)

/-- C7 witness: the theorem evaluated for a disabled descriptor (no
contribution) and for an enabled one (exactly one contribution). -/
theorem task_contributes_exactly_one_witness :
    execLinterTask flake8off id ["a"] fsA0 fsA0 procOK = none ∧
    (((∃ r, execLinterTask flake8 id ["a"] fsA0 fsA0 procOK = some (Sum.inr r)) ∧
      ¬ ∃ e, execLinterTask flake8 id ["a"] fsA0 fsA0 procOK = some (Sum.inl e)) ∨
     ((∃ e, execLinterTask flake8 id ["a"] fsA0 fsA0 procOK = some (Sum.inl e)) ∧
      ¬ ∃ r, execLinterTask flake8 id ["a"] fsA0 fsA0 procOK = some (Sum.inr r))) :=
  ⟨(task_contributes_exactly_one flake8off id ["a"] fsA0 fsA0 procOK).1.mpr rfl,
   (task_contributes_exactly_one flake8 id ["a"] fsA0 fsA0 procOK).2.2 rfl⟩

end LyLint
